import Mathlib

/-!
Verification of the run-lifecycle orchestrator in `src/backend/main.py`
(MontyUnitreeSim backend).

The Python module keeps its state in module-level dictionaries
(`runs`, `logs`, `metrics`), a process-wide `log_counter`, and a list of
active WebSocket connections.  We embed that state as an explicit record
and every operation (`create_run`, `cancel_run`, `_add_log`,
`_broadcast_log`, `_prepare_job_template`, the HTTP read handlers) as a
pure function on it.  External effects (S3 puts, Kubernetes job
creation/deletion, WebSocket sends) are modelled by boolean oracles for
their success plus an explicit trace of attempted calls; clock reads
inside one handler are modelled by a single timestamp parameter.
-/

/-! ### Python `dict` as an insertion-ordered association list -/

/-- Lookup in an insertion-ordered dictionary (`d[k]` / `k in d`). -/
def dictGet? {α : Type} : List (String × α) → String → Option α
  | [], _ => none
  | (k', v) :: rest, k => if k' = k then some v else dictGet? rest k

/-- Python `d[k] = v`: replace in place if the key is present, append otherwise. -/
def dictInsert {α : Type} : List (String × α) → String → α → List (String × α)
  | [], k, v => [(k, v)]
  | (k', v') :: rest, k, v =>
    if k' = k then (k, v) :: rest else (k', v') :: dictInsert rest k v

/-- Update the value stored at a present key in place (mutation of the stored object). -/
def dictUpdate {α : Type} : List (String × α) → String → (α → α) → List (String × α)
  | [], _, _ => []
  | (k', v) :: rest, k, f =>
    if k' = k then (k', f v) :: rest else (k', v) :: dictUpdate rest k f

/-- The keys of a dictionary in insertion order. -/
def dictKeys {α : Type} (l : List (String × α)) : List String := l.map (fun p => p.1)

theorem dictGet?_insert_self {α : Type} (l : List (String × α)) (k : String) (v : α) :
    dictGet? (dictInsert l k v) k = some v := by
  induction l with
  | nil => simp [dictInsert, dictGet?]
  | cons p rest ih =>
    by_cases h : p.1 = k <;> simp [dictInsert, dictGet?, h, ih]

theorem dictGet?_insert_ne {α : Type} (l : List (String × α)) (k k' : String) (v : α)
    (h : k' ≠ k) : dictGet? (dictInsert l k v) k' = dictGet? l k' := by
  have hk : k ≠ k' := fun hh => h hh.symm
  induction l with
  | nil => simp [dictInsert, dictGet?, hk]
  | cons p rest ih =>
    by_cases hp : p.1 = k
    · subst hp
      simp [dictInsert, dictGet?, hk, h]
    · simp only [dictInsert, hp, if_false]
      by_cases hp' : p.1 = k' <;> simp [dictGet?, hp', ih]

theorem dictGet?_update_self {α : Type} (l : List (String × α)) (k : String) (f : α → α) :
    dictGet? (dictUpdate l k f) k = Option.map f (dictGet? l k) := by
  induction l with
  | nil => simp [dictUpdate, dictGet?]
  | cons p rest ih =>
    by_cases h : p.1 = k <;> simp [dictUpdate, dictGet?, h, ih]

theorem dictGet?_update_ne {α : Type} (l : List (String × α)) (k k' : String) (f : α → α)
    (h : k' ≠ k) : dictGet? (dictUpdate l k f) k' = dictGet? l k' := by
  have hk : k ≠ k' := fun hh => h hh.symm
  induction l with
  | nil => simp [dictUpdate, dictGet?]
  | cons p rest ih =>
    by_cases hp : p.1 = k
    · subst hp
      simp [dictUpdate, dictGet?, hk]
    · by_cases hp' : p.1 = k' <;> simp [dictUpdate, dictGet?, hp, hp', h, ih]

theorem dictKeys_update {α : Type} (l : List (String × α)) (k : String) (f : α → α) :
    dictKeys (dictUpdate l k f) = dictKeys l := by
  induction l with
  | nil => rfl
  | cons p rest ih =>
    by_cases h : p.1 = k
    · simp [dictUpdate, dictKeys, h]
    · simp only [dictUpdate, h, if_false, dictKeys, List.map_cons, List.cons.injEq, true_and]
      exact ih

theorem dictInsert_of_not_mem {α : Type} (l : List (String × α)) (k : String) (v : α)
    (h : k ∉ dictKeys l) : dictInsert l k v = l ++ [(k, v)] := by
  induction l with
  | nil => rfl
  | cons p rest ih =>
    simp only [dictKeys, List.map_cons, List.mem_cons] at h
    push_neg at h
    have hne : p.1 ≠ k := fun hh => h.1 hh.symm
    simp only [dictInsert, hne, if_false, List.cons_append, List.cons.injEq, true_and]
    exact ih (by simpa [dictKeys] using h.2)

theorem dictGet?_isSome_iff_mem {α : Type} (l : List (String × α)) (k : String) :
    (dictGet? l k).isSome = true ↔ k ∈ dictKeys l := by
  induction l with
  | nil => simp [dictGet?, dictKeys]
  | cons p rest ih =>
    by_cases h : p.1 = k
    · simp [dictGet?, dictKeys, h]
    · simp only [dictGet?, h, if_false, dictKeys, List.map_cons, List.mem_cons]
      rw [ih]
      simp only [dictKeys]
      constructor
      · exact Or.inr
      · rintro (hh | hh)
        · exact absurd hh.symm h
        · exact hh

theorem dictGet?_eq_none_of_not_mem {α : Type} (l : List (String × α)) (k : String)
    (h : k ∉ dictKeys l) : dictGet? l k = none := by
  rcases ho : dictGet? l k with _ | v
  · rfl
  · exact absurd ((dictGet?_isSome_iff_mem l k).1 (by simp [ho])) h

theorem mem_values_of_dictGet? {α : Type} (l : List (String × α)) (k : String) (v : α)
    (h : dictGet? l k = some v) : v ∈ l.map (fun p => p.2) := by
  induction l with
  | nil => simp [dictGet?] at h
  | cons p rest ih =>
    by_cases hp : p.1 = k
    · simp only [dictGet?, hp, if_true, Option.some.injEq] at h
      simp [h]
    · simp only [dictGet?, hp, if_false] at h
      simp [ih h]

/-! ### Decimal representation facts

`create_run` builds run identities as `f"run-{len(self.runs) + 1}-{timestamp}"`.
To show freshly allocated identities never collide we prove that the decimal
numeral rendered by `Nat.repr` contains no dash and determines the number. -/

/-- Value of a decimal digit character. -/
def charVal (c : Char) : Nat := c.toNat - '0'.toNat

/-- Value of a most-significant-first decimal digit string, continuing from `a`. -/
def digitsValFrom (a : Nat) (cs : List Char) : Nat :=
  cs.foldl (fun x c => 10 * x + charVal c) a

/-- Reference most-significant-first decimal digit rendering of a natural number. -/
def natDigits (n : Nat) : List Char :=
  if n < 10 then [Nat.digitChar n]
  else natDigits (n / 10) ++ [Nat.digitChar (n % 10)]
termination_by n
decreasing_by exact Nat.div_lt_self (by omega) (by omega)

theorem charVal_digitChar : ∀ m, m < 10 → charVal (Nat.digitChar m) = m := by decide

theorem digitChar_ne_dash (m : Nat) : Nat.digitChar m ≠ '-' := by
  by_cases h : m < 16
  · have hall : ∀ k, k < 16 → Nat.digitChar k ≠ '-' := by decide
    exact hall m h
  · unfold Nat.digitChar
    iterate 16 rw [if_neg (by omega)]
    decide

theorem natDigits_ne_dash (n : Nat) : ∀ c ∈ natDigits n, c ≠ '-' := by
  induction n using Nat.strong_induction_on with
  | _ n ih =>
    rw [natDigits]
    by_cases h : n < 10
    · simp only [h, if_true, List.mem_singleton]
      rintro c rfl
      exact digitChar_ne_dash n
    · simp only [h, if_false, List.mem_append, List.mem_singleton]
      rintro c (hc | rfl)
      · exact ih (n / 10) (Nat.div_lt_self (by omega) (by omega)) c hc
      · exact digitChar_ne_dash (n % 10)

theorem digitsVal_natDigits (n : Nat) : digitsValFrom 0 (natDigits n) = n := by
  induction n using Nat.strong_induction_on with
  | _ n ih =>
    rw [natDigits]
    by_cases h : n < 10
    · simp [h, digitsValFrom, charVal_digitChar n h]
    · simp only [h, if_false]
      have hlt : n / 10 < n := Nat.div_lt_self (by omega) (by omega)
      have hmod : n % 10 < 10 := Nat.mod_lt _ (by omega)
      simp only [digitsValFrom, List.foldl_append, List.foldl_cons, List.foldl_nil]
      have := ih (n / 10) hlt
      simp only [digitsValFrom] at this
      rw [this, charVal_digitChar _ hmod]
      omega

theorem natDigits_inj {m n : Nat} (h : natDigits m = natDigits n) : m = n := by
  have := congrArg (digitsValFrom 0) h
  rwa [digitsVal_natDigits, digitsVal_natDigits] at this

theorem toDigitsCore_eq_natDigits :
    ∀ (fuel n : Nat) (ds : List Char), 0 < fuel → n < 10 ^ fuel →
      Nat.toDigitsCore 10 fuel n ds = natDigits n ++ ds := by
  intro fuel
  induction fuel with
  | zero => intro n ds h; omega
  | succ f ih =>
    intro n ds _ hlt
    show (if n / 10 = 0 then Nat.digitChar (n % 10) :: ds
      else Nat.toDigitsCore 10 f (n / 10) (Nat.digitChar (n % 10) :: ds)) = natDigits n ++ ds
    by_cases hdiv : n / 10 = 0
    · have hn : n < 10 := by omega
      rw [natDigits]
      simp [hdiv, hn, Nat.mod_eq_of_lt hn]
    · have hn : ¬ n < 10 := by
        intro hc
        exact hdiv (Nat.div_eq_of_lt hc)
      have hf : 0 < f := by
        rcases Nat.eq_zero_or_pos f with rfl | hf
        · simp at hlt; omega
        · exact hf
      have hlt' : n / 10 < 10 ^ f := by
        have hp : (10 : Nat) ^ (f + 1) = 10 * 10 ^ f := by ring
        exact Nat.div_lt_of_lt_mul (by omega)
      rw [natDigits]
      simp only [hdiv, if_false, hn, ih (n / 10) _ hf hlt', List.append_assoc,
        List.singleton_append]

theorem repr_data_eq_natDigits (n : Nat) : (Nat.repr n).data = natDigits n := by
  have hlt : n < 10 ^ (n + 1) :=
    lt_of_lt_of_le (Nat.lt_pow_self (by omega) n)
      (Nat.pow_le_pow_right (by omega) (Nat.le_succ n))
  show (Nat.toDigits 10 n).asString.data = natDigits n
  rw [Nat.toDigits, toDigitsCore_eq_natDigits (n + 1) n [] (Nat.succ_pos n) hlt]
  simp [List.asString]

theorem repr_ne_dash (n : Nat) : ∀ c ∈ (Nat.repr n).data, c ≠ '-' := by
  rw [repr_data_eq_natDigits]
  exact natDigits_ne_dash n

theorem repr_injective {m n : Nat} (h : Nat.repr m = Nat.repr n) : m = n := by
  apply natDigits_inj
  rw [← repr_data_eq_natDigits, ← repr_data_eq_natDigits, h]

/-- If two dash-free blocks are followed by a dash, equality of the whole
strings forces equality of the blocks and of the tails. -/
theorem split_at_dash :
    ∀ (A : List Char) (B : List Char) (s t : List Char),
      (∀ c ∈ A, c ≠ '-') → (∀ c ∈ B, c ≠ '-') →
      A ++ '-' :: s = B ++ '-' :: t → A = B ∧ s = t := by
  intro A
  induction A with
  | nil =>
    intro B s t _ hB h
    cases B with
    | nil => simpa using h
    | cons b B' =>
      simp only [List.nil_append, List.cons_append, List.cons.injEq] at h
      exact absurd h.1.symm (hB b (by simp))
  | cons a A' ih =>
    intro B s t hA hB h
    cases B with
    | nil =>
      simp only [List.nil_append, List.cons_append, List.cons.injEq] at h
      exact absurd h.1 (hA a (by simp))
    | cons b B' =>
      simp only [List.cons_append, List.cons.injEq] at h
      obtain ⟨rfl, h2⟩ := h
      obtain ⟨hAB, hst⟩ := ih B' s t (fun c hc => hA c (by simp [hc]))
        (fun c hc => hB c (by simp [hc])) h2
      exact ⟨by rw [hAB], hst⟩

theorem string_append_cancel_left {s t₁ t₂ : String} (h : s ++ t₁ = s ++ t₂) : t₁ = t₂ := by
  have hd := congrArg String.data h
  simp only [String.data_append] at hd
  exact String.ext (List.append_cancel_left hd)

/-- Run identity allocation, from `create_run`:
`run_id = f"run-{len(self.runs) + 1}-{datetime.now().strftime('%Y%m%d-%H%M%S')}"`.
`count` is `len(self.runs)` at allocation time and `ts` the formatted timestamp. -/
def mkRunId (count : Nat) (ts : String) : String :=
  "run-" ++ (toString (count + 1) ++ ("-" ++ ts))

theorem toString_nat_eq_repr (n : Nat) : toString n = Nat.repr n := rfl

theorem mkRunId_inj {i j : Nat} {ts ts' : String}
    (h : mkRunId i ts = mkRunId j ts') : i = j := by
  unfold mkRunId at h
  have h1 : toString (i + 1) ++ ("-" ++ ts) = toString (j + 1) ++ ("-" ++ ts') :=
    string_append_cancel_left h
  have h2 : (Nat.repr (i + 1)).data ++ ('-' :: ts.data) =
      (Nat.repr (j + 1)).data ++ ('-' :: ts'.data) := by
    have := congrArg String.data h1
    simpa [toString_nat_eq_repr, String.data_append] using this
  have h3 := split_at_dash (Nat.repr (i + 1)).data (Nat.repr (j + 1)).data ts.data ts'.data
    (repr_ne_dash (i + 1)) (repr_ne_dash (j + 1)) h2
  have h4 : Nat.repr (i + 1) = Nat.repr (j + 1) := String.ext h3.1
  have := repr_injective h4
  omega

/-! ### Data model (Pydantic models from `main.py`) -/

/-- `RunStatus` enum. -/
inductive RunStatus
  | pending
  | running
  | completed
  | failed
  | cancelled
deriving DecidableEq, Repr

/-- `LogLevel` enum. -/
inductive LogLevel
  | info
  | warn
  | error
  | debug
deriving DecidableEq, Repr

/-- `DockerImage` model. -/
structure DockerImage where
  id : String
  repo : String
  tag : String
  type : String
deriving DecidableEq, Repr

/-- `BrainProfile` model. -/
structure BrainProfile where
  id : String
  name : String
  config : String
deriving DecidableEq, Repr

/-- `Artifact` model. -/
structure Artifact where
  id : String
  kind : String
  s3_uri : String
deriving DecidableEq, Repr

/-- `Run` model.  `createdAt` timestamps are kept as their formatted strings. -/
structure RunRec where
  id : String
  name : String
  status : RunStatus
  createdAt : String
  montyImage : DockerImage
  simulatorImage : DockerImage
  brainProfile : BrainProfile
  artifacts : List Artifact
  glueCode : Option String
  checkpointIn : Option String
  checkpointOut : Option String
deriving DecidableEq, Repr

/-- `LogEntry` model. -/
structure LogEntry where
  id : Nat
  runId : String
  timestamp : String
  level : LogLevel
  message : String
deriving DecidableEq, Repr

/-- `MetricPoint` model. -/
structure MetricPoint where
  time : Int
  reward : Int
  energy : Int
  nociceptor : Int
deriving DecidableEq, Repr

/-- `CreateRunRequest` model. -/
structure CreateRunRequest where
  name : String
  montyImage : DockerImage
  simulatorImage : DockerImage
  brainProfile : BrainProfile
  glueCode : String
  checkpointIn : Option String
  activeDeadlineSeconds : Nat
deriving DecidableEq, Repr

/-- Module-level configuration (`NAMESPACE`, bucket names, `ECR_REGISTRY`). -/
structure OrchConfig where
  ns : String
  checkpointsBucket : String
  artifactsBucket : String
  ecrRegistry : String
deriving DecidableEq, Repr

/-! ### The event broadcaster (`_broadcast_log`)

A WebSocket connection is identified by `cid`; `failing` says whether
`send_text` to it raises.  The Python loop

    for connection in active_connections:
        try:
            await connection.send_text(...)
        except:
            active_connections.remove(connection)

iterates with a list iterator (an index into the live list) while removing
from that same list; we model the iterator index and `list.remove`
(delete the first equal element) exactly.  The fuel argument starts at the
length of the list, which bounds the number of iterator steps. -/

/-- A live WebSocket connection. -/
structure Conn where
  cid : Nat
  failing : Bool
deriving DecidableEq, Repr

/-- Python `list.remove(x)`: delete the first element equal to `x`. -/
def removeFirst : List Conn → Conn → List Conn
  | [], _ => []
  | x :: xs, c => if x = c then xs else x :: removeFirst xs c

theorem removeFirst_length_of_mem {l : List Conn} {c : Conn} (h : c ∈ l) :
    (removeFirst l c).length + 1 = l.length := by
  induction l with
  | nil => simp at h
  | cons x xs ih =>
    by_cases hx : x = c
    · simp [removeFirst, hx]
    · rcases List.mem_cons.1 h with rfl | hmem
      · exact absurd rfl hx
      · simp [removeFirst, hx, ih hmem]

/-- One run of Python's `for connection in active_connections` loop with
in-loop removal: `n` is the iterator index, the result is the pair of
(connections the entry was delivered to, final live list). -/
def pyBroadcastGo : Nat → List Conn → Nat → List Conn × List Conn
  | 0, l, _ => ([], l)
  | fuel + 1, l, n =>
    if h : n < l.length then
      let c := l.get ⟨n, h⟩
      if c.failing then pyBroadcastGo fuel (removeFirst l c) (n + 1)
      else
        let r := pyBroadcastGo fuel l (n + 1)
        (c :: r.1, r.2)
    else ([], l)

/-- `_broadcast_log`: deliver to the live list, starting the iterator at 0. -/
def pyBroadcast (l : List Conn) : List Conn × List Conn :=
  pyBroadcastGo l.length l 0

/-- Any fuel at least `l.length - n` computes the same result, so the
`l.length` used by `pyBroadcast` is enough: the fuel is not observable. -/
theorem pyBroadcastGo_fuel_irrelevant :
    ∀ (fuel fuel' : Nat) (l : List Conn) (n : Nat),
      l.length - n ≤ fuel → l.length - n ≤ fuel' →
      pyBroadcastGo fuel l n = pyBroadcastGo fuel' l n := by
  intro fuel
  induction fuel with
  | zero =>
    intro fuel' l n h _
    cases fuel' with
    | zero => rfl
    | succ f' =>
      have hn : ¬ n < l.length := by omega
      simp [pyBroadcastGo, hn]
  | succ f ih =>
    intro fuel' l n h h'
    cases fuel' with
    | zero =>
      have hn : ¬ n < l.length := by omega
      simp [pyBroadcastGo, hn]
    | succ f' =>
      simp only [pyBroadcastGo]
      by_cases hn : n < l.length
      · simp only [hn, dif_pos]
        by_cases hf : (l.get ⟨n, hn⟩).failing
        · simp only [hf, if_true]
          have hrem := removeFirst_length_of_mem (List.get_mem l n hn)
          exact ih f' (removeFirst l (l.get ⟨n, hn⟩)) (n + 1) (by omega) (by omega)
        · rw [ih f' l (n + 1) (by omega) (by omega)]
          have hf' : ¬ l[n].failing = true := by simpa [List.get_eq_getElem] using hf
          simp [hf']
      · simp [hn]

/-! ### Workload descriptor (`_prepare_job_template`) -/

/-- One `env` entry of a container spec. -/
structure EnvVar where
  name : String
  value : String
deriving DecidableEq, Repr

/-- One `ports` entry of a container spec. -/
structure ContainerPort where
  name : String
  containerPort : Nat
  protocol : String
deriving DecidableEq, Repr

/-- One `volumeMounts` entry of a container spec. -/
structure VolumeMount where
  name : String
  mountPath : String
deriving DecidableEq, Repr

/-- One `tolerations` entry of the pod spec. -/
structure Toleration where
  key : String
  operator : String
  value : String
  effect : String
deriving DecidableEq, Repr

/-- A container spec as constructed by `_prepare_job_template`. -/
structure Container where
  name : String
  image : String
  imagePullPolicy : Option String
  command : Option (List String)
  gpuLimit : Option Nat
  env : List EnvVar
  ports : List ContainerPort
  volumeMounts : List VolumeMount
deriving DecidableEq, Repr

/-- The Kubernetes Job dictionary built by `_prepare_job_template`, with the
nesting flattened into named fields (`name`/`ns`/`labels` sit under
`metadata`, `podLabels` under `spec.template.metadata.labels`, and the pod
fields under `spec.template.spec`).  `volumes` keeps the names of the three
`emptyDir` volumes. -/
structure JobTemplate where
  apiVersion : String
  kind : String
  name : String
  ns : String
  labels : List (String × String)
  ttlSecondsAfterFinished : Nat
  activeDeadlineSeconds : Nat
  backoffLimit : Nat
  podLabels : List (String × String)
  restartPolicy : String
  serviceAccountName : String
  nodeSelector : List (String × String)
  tolerations : List Toleration
  containers : List Container
  volumes : List String
deriving DecidableEq, Repr

/-- `s3_checkpoint_out = f"s3://{S3_CHECKPOINTS_BUCKET}/checkpoints/{run.id}/out.mstate"`. -/
def s3CheckpointOutLoc (cfg : OrchConfig) (runId : String) : String :=
  "s3://" ++ cfg.checkpointsBucket ++ "/checkpoints/" ++ runId ++ "/out.mstate"

/-- The f-string shell script of the `artifact-uploader` container, as a
function of the two interpolated S3 destinations. -/
def uploaderScript (artifactsDest ckptDest : String) : String :=
  "\n                                    set -e\n                                    echo \"Uploading artifacts...\"\n                                    aws s3 sync /artifacts " ++
  artifactsDest ++
  (" --only-show-errors\n                                    if [ -f /checkpoints/out.mstate ]; then\n                                        aws s3 cp /checkpoints/out.mstate " ++
  (ckptDest ++
  " --only-show-errors\n                                    fi\n                                    echo \"Done.\"\n                                    "))

/-- `_prepare_job_template(run, active_deadline_seconds)`, with the module
configuration made explicit.  (The source also computes `s3_glue_prefix`,
which is never used in the template and is therefore not modelled.) -/
def _prepare_job_template (cfg : OrchConfig) (run : RunRec)
    (activeDeadlineSeconds : Nat) : JobTemplate :=
  let monty_image := cfg.ecrRegistry ++ "/" ++ run.montyImage.repo ++ ":" ++ run.montyImage.tag
  let sim_image :=
    cfg.ecrRegistry ++ "/" ++ run.simulatorImage.repo ++ ":" ++ run.simulatorImage.tag
  let glue_image := cfg.ecrRegistry ++ "/glue-base:py310"
  let s3_artifacts_dest := "s3://" ++ cfg.artifactsBucket ++ "/runs/" ++ run.id ++ "/artifacts"
  let s3_checkpoint_in := run.checkpointIn.getD ""
  let s3_checkpoint_out := s3CheckpointOutLoc cfg run.id
  { apiVersion := "batch/v1"
    kind := "Job"
    name := "sim-run-" ++ run.id
    ns := cfg.ns
    labels := [("app", "sim-run"), ("run-id", run.id), ("user", "default"),
      ("profile", run.brainProfile.id)]
    ttlSecondsAfterFinished := 600
    activeDeadlineSeconds := activeDeadlineSeconds
    backoffLimit := 0
    podLabels := [("app", "sim-run"), ("run-id", run.id)]
    restartPolicy := "Never"
    serviceAccountName := "sim-runner"
    nodeSelector := [("role", "gpu")]
    tolerations := [⟨"nvidia.com/gpu", "Equal", "present", "NoSchedule"⟩]
    containers := [
      { name := "unitree-sim", image := sim_image, imagePullPolicy := some "IfNotPresent",
        command := none, gpuLimit := some 1,
        env := [⟨"DT", "0.005"⟩, ⟨"WEBRTC", "true"⟩],
        ports := [{ name := "webrtc", containerPort := 8554, protocol := "TCP" }],
        volumeMounts := [⟨"ckpt", "/checkpoints"⟩, ⟨"artifacts", "/artifacts"⟩,
          ⟨"glue", "/glue"⟩] },
      { name := "monty", image := monty_image, imagePullPolicy := none, command := none,
        gpuLimit := none,
        env := [⟨"CHECKPOINT_IN", s3_checkpoint_in⟩,
          ⟨"CHECKPOINT_OUT", "/checkpoints/out.mstate"⟩,
          ⟨"MONTY_CONFIG", "/glue/monty.yaml"⟩, ⟨"DT", "0.005"⟩],
        ports := [],
        volumeMounts := [⟨"ckpt", "/checkpoints"⟩, ⟨"artifacts", "/artifacts"⟩,
          ⟨"glue", "/glue"⟩] },
      { name := "glue", image := glue_image, imagePullPolicy := none,
        command := some ["python", "/glue/run.py"], gpuLimit := none,
        env := [⟨"DT", "0.005"⟩, ⟨"OBS_SCHEMA_PATH", "/glue/observation.schema.json"⟩,
          ⟨"ACT_SCHEMA_PATH", "/glue/action.schema.json"⟩],
        ports := [],
        volumeMounts := [⟨"ckpt", "/checkpoints"⟩, ⟨"artifacts", "/artifacts"⟩,
          ⟨"glue", "/glue"⟩] },
      { name := "artifact-uploader", image := "public.ecr.aws/aws-cli/aws-cli:latest",
        imagePullPolicy := none,
        command := some ["/bin/sh", "-lc", uploaderScript s3_artifacts_dest s3_checkpoint_out],
        gpuLimit := none, env := [], ports := [],
        volumeMounts := [⟨"ckpt", "/checkpoints"⟩, ⟨"artifacts", "/artifacts"⟩] }]
    volumes := ["ckpt", "artifacts", "glue"] }

/-- Look up a container of the template by name. -/
def getContainer? (t : JobTemplate) (cname : String) : Option Container :=
  t.containers.find? (fun c => c.name == cname)

/-- The value of an `env` entry of a named container. -/
def containerEnv (t : JobTemplate) (cname ename : String) : Option String :=
  match getContainer? t cname with
  | none => none
  | some c =>
    match c.env.find? (fun e => e.name == ename) with
    | none => none
    | some e => some e.value

/-- The shell script of the `artifact-uploader` container
(third element of its `command`). -/
def uploaderScriptOf (t : JobTemplate) : Option String :=
  match getContainer? t "artifact-uploader" with
  | none => none
  | some c =>
    match c.command with
    | some [_, _, scr] => some scr
    | _ => none

/-! ### Orchestrator state and operations -/

/-- An attempted call to an external collaborator (recorded even when the
collaborator reports failure). -/
inductive ExtCall
  | putObject (bucket : String) (key : String)
  | createJob (jobName : String)
  | deleteJob (jobName : String)
deriving DecidableEq, Repr

/-- The module-level mutable state of `main.py`: the `runs`, `logs` and
`metrics` dictionaries, the WebSocket `active_connections` list and the
process-wide `log_counter`.  `extCalls` traces attempted collaborator calls;
`history` records every log entry in the order it was appended (observation
used to state process-wide ordering, not a Python variable). -/
structure OrchState where
  runs : List (String × RunRec)
  logs : List (String × List LogEntry)
  metrics : List (String × List MetricPoint)
  conns : List Conn
  log_counter : Nat
  extCalls : List ExtCall
  history : List LogEntry
deriving DecidableEq, Repr

/-- Errors surfaced to HTTP callers (`HTTPException`s of `main.py`). -/
inductive ApiError
  | notFound
  | invalidState
  | uploadFailed
  | submitFailed
  | cancelFailed
deriving DecidableEq, Repr

/-- `_add_log(run_id, level, message)`: allocate the next process-wide
sequence id, append to the run's log list (creating it when absent),
bump the counter and broadcast to the live connections. -/
def _add_log (s : OrchState) (run_id : String) (ts : String) (level : LogLevel)
    (message : String) : OrchState :=
  let log_entry : LogEntry :=
    { id := s.log_counter, runId := run_id, timestamp := ts, level := level, message := message }
  let logs :=
    if (dictGet? s.logs run_id).isSome then
      dictUpdate s.logs run_id (fun l => l ++ [log_entry])
    else s.logs ++ [(run_id, [log_entry])]
  { s with logs := logs, log_counter := s.log_counter + 1,
           history := s.history ++ [log_entry],
           conns := (pyBroadcast s.conns).2 }

/-- `run.status = st` on the object stored in the `runs` dictionary. -/
def setRunStatus (s : OrchState) (run_id : String) (st : RunStatus) : OrchState :=
  { s with runs := dictUpdate s.runs run_id (fun r => { r with status := st }) }

/-- The fresh `Run` object constructed by `create_run` (status `Pending`,
no artifacts, no checkpoint-out). -/
def newRun (req : CreateRunRequest) (ts rid : String) : RunRec :=
  { id := rid, name := req.name, status := RunStatus.pending, createdAt := ts,
    montyImage := req.montyImage, simulatorImage := req.simulatorImage,
    brainProfile := req.brainProfile, artifacts := [], glueCode := some req.glueCode,
    checkpointIn := req.checkpointIn, checkpointOut := none }

/-- `key = f"glue/{run_id}/run.py"` of `_upload_glue_code`. -/
def glueKey (rid : String) : String := "glue/" ++ rid ++ "/run.py"

/-- `f"sim-run-{run.id}"`, the job name used at submission and deletion. -/
def jobName (rid : String) : String := "sim-run-" ++ rid

/-- `create_run(request)` of `SimulationOrchestrator`, inlining
`_upload_glue_code` and `_create_k8s_job`.  `ts` stands for the clock reads
inside the call, `uploadOk` for the S3 `put_object` outcome, `submitOk` and
`submitErr` for the `create_namespaced_job` outcome and exception text.
The pair returned is (what the HTTP caller gets, the final module state). -/
def create_run (cfg : OrchConfig) (req : CreateRunRequest) (ts : String)
    (uploadOk submitOk : Bool) (submitErr : String) (s : OrchState) :
    Except ApiError RunRec × OrchState :=
  let run_id := mkRunId s.runs.length ts
  let run : RunRec := newRun req ts run_id
  let s1 : OrchState :=
    { s with runs := dictInsert s.runs run_id run,
             logs := dictInsert s.logs run_id [],
             metrics := dictInsert s.metrics run_id [] }
  let s2 : OrchState :=
    { s1 with extCalls :=
        s1.extCalls ++ [ExtCall.putObject cfg.artifactsBucket (glueKey run_id)] }
  if uploadOk then
    let s3 : OrchState :=
      { s2 with extCalls := s2.extCalls ++ [ExtCall.createJob (jobName run_id)] }
    if submitOk then
      let s4 := setRunStatus s3 run_id RunStatus.running
      let s5 := _add_log s4 run_id ts LogLevel.info "Kubernetes job created and started"
      let s6 := _add_log s5 run_id ts LogLevel.info ("Run " ++ req.name ++ " created and queued")
      (Except.ok { run with status := RunStatus.running }, s6)
    else
      let s4 := setRunStatus s3 run_id RunStatus.failed
      let s5 := _add_log s4 run_id ts LogLevel.error
        ("Failed to create Kubernetes job: " ++ submitErr)
      (Except.error ApiError.submitFailed, s5)
  else (Except.error ApiError.uploadFailed, s2)

/-- `cancel_run(run_id)` (the `DELETE /runs/{run_id}` handler).
`deleteOk` is the outcome of `delete_namespaced_job`. -/
def cancel_run (run_id : String) (deleteOk : Bool) (ts : String) (s : OrchState) :
    Except ApiError Unit × OrchState :=
  match dictGet? s.runs run_id with
  | none => (Except.error ApiError.notFound, s)
  | some run =>
    if run.status = RunStatus.pending ∨ run.status = RunStatus.running then
      let s1 : OrchState :=
        { s with extCalls := s.extCalls ++ [ExtCall.deleteJob (jobName run_id)] }
      if deleteOk then
        let s2 := setRunStatus s1 run_id RunStatus.cancelled
        let s3 := _add_log s2 run_id ts LogLevel.info "Run cancelled by user"
        (Except.ok (), s3)
      else (Except.error ApiError.cancelFailed, s1)
    else (Except.error ApiError.invalidState, s)

/-- `GET /runs`: all runs in dictionary order. -/
def get_runs (s : OrchState) : List RunRec := s.runs.map (fun p => p.2)

/-- `GET /runs/{run_id}`. -/
def get_run (s : OrchState) (run_id : String) : Except ApiError RunRec :=
  match dictGet? s.runs run_id with
  | none => Except.error ApiError.notFound
  | some r => Except.ok r

/-- `GET /runs/{run_id}/logs`: `logs.get(run_id, [])` guarded by run existence. -/
def get_run_logs (s : OrchState) (run_id : String) : Except ApiError (List LogEntry) :=
  if (dictGet? s.runs run_id).isSome then Except.ok ((dictGet? s.logs run_id).getD [])
  else Except.error ApiError.notFound

/-- One core operation together with its environment oracle
(timestamps, collaborator outcomes). -/
inductive OrchOp
  | create (req : CreateRunRequest) (ts : String) (uploadOk submitOk : Bool) (submitErr : String)
  | cancel (run_id : String) (deleteOk : Bool) (ts : String)
deriving Repr

/-- Apply one operation to the state (the HTTP result is discarded). -/
def applyOp (cfg : OrchConfig) (s : OrchState) : OrchOp → OrchState
  | OrchOp.create req ts u k e => (create_run cfg req ts u k e s).2
  | OrchOp.cancel rid d ts => (cancel_run rid d ts s).2

/-- The module state right after startup: empty dictionaries, counter 0. -/
def initState : OrchState :=
  { runs := [], logs := [], metrics := [], conns := [], log_counter := 0,
    extCalls := [], history := [] }

/-- The state after a sequence of core operations from startup. -/
def runOps (cfg : OrchConfig) (ops : List OrchOp) : OrchState :=
  ops.foldl (applyOp cfg) initState

/-! ### Concrete fixtures (used by witnesses and counterexamples) -/

/-- A Monty image from the static catalog. -/
def exImgM : DockerImage :=
  { id := "m1", repo := "monty", tag := "latest", type := "monty" }

/-- A simulator image from the static catalog. -/
def exImgS : DockerImage :=
  { id := "s1", repo := "unitree-sim", tag := "isaac-5.0", type := "simulator" }

/-- A brain profile from the static catalog. -/
def exProfile : BrainProfile :=
  { id := "bp1", name := "Small (Fast)", config := "size: small" }

/-- A concrete creation request with no checkpoint-in. -/
def exReq : CreateRunRequest :=
  { name := "demo", montyImage := exImgM, simulatorImage := exImgS,
    brainProfile := exProfile, glueCode := "print(1)", checkpointIn := none,
    activeDeadlineSeconds := 3600 }

/-- The default module configuration of `main.py`. -/
def exCfg : OrchConfig :=
  { ns := "monty-sim", checkpointsBucket := "monty-checkpoints-dev",
    artifactsBucket := "sim-artifacts-dev", ecrRegistry := "ecr.example" }

/-! ### Reachable-state invariant -/

/-- Every key sits at the index recorded inside it: the key at position `i`
was allocated when the dictionary had `i` entries. -/
def keysIndexed (ks : List String) : Prop :=
  ∀ i, (h : i < ks.length) → ∃ ts, ks.get ⟨i, h⟩ = mkRunId i ts

/-- Invariant of every state reachable from `initState` by core operations:
log history ids are exactly `0, 1, …, log_counter - 1` in append order,
the `logs` dictionary has the same keys as `runs`, run keys are indexed by
creation order, and each stored run's `id` field is its key. -/
def goodState (s : OrchState) : Prop :=
  s.history.map (fun e => e.id) = List.range s.log_counter ∧
  dictKeys s.logs = dictKeys s.runs ∧
  keysIndexed (dictKeys s.runs) ∧
  (∀ p ∈ s.runs, p.2.id = p.1)

theorem keysIndexed_nodup {ks : List String} (h : keysIndexed ks) : ks.Nodup := by
  rw [List.nodup_iff_injective_get]
  intro i j hij
  obtain ⟨ts, hts⟩ := h i.1 i.2
  obtain ⟨ts', hts'⟩ := h j.1 j.2
  have : mkRunId i.1 ts = mkRunId j.1 ts' := by
    rw [← hts, ← hts']
    exact hij
  exact Fin.ext (mkRunId_inj this)

theorem keysIndexed_append {ks : List String} (h : keysIndexed ks) (ts : String) :
    keysIndexed (ks ++ [mkRunId ks.length ts]) := by
  intro i hi
  simp only [List.length_append, List.length_singleton] at hi
  by_cases hlt : i < ks.length
  · obtain ⟨ts', hts'⟩ := h i hlt
    refine ⟨ts', ?_⟩
    rw [List.get_append i hlt]
    exact hts'
  · have hie : i = ks.length := by omega
    subst hie
    refine ⟨ts, ?_⟩
    simp [List.get_append_right]

theorem mkRunId_fresh {s : OrchState} (hs : goodState s) (ts : String) :
    mkRunId s.runs.length ts ∉ dictKeys s.runs := by
  intro hmem
  obtain ⟨⟨i, hi⟩, hget⟩ := List.mem_iff_get.1 hmem
  obtain ⟨ts', hts'⟩ := hs.2.2.1 i hi
  have hlen : (dictKeys s.runs).length = s.runs.length := by simp [dictKeys]
  have : mkRunId i ts' = mkRunId s.runs.length ts := by rw [← hts', hget]
  have := mkRunId_inj this
  omega

/-! ### Field-level descriptions of the mutators -/

theorem add_log_runs (s : OrchState) (rid ts : String) (lv : LogLevel) (msg : String) :
    (_add_log s rid ts lv msg).runs = s.runs := rfl

theorem add_log_counter (s : OrchState) (rid ts : String) (lv : LogLevel) (msg : String) :
    (_add_log s rid ts lv msg).log_counter = s.log_counter + 1 := rfl

theorem add_log_history (s : OrchState) (rid ts : String) (lv : LogLevel) (msg : String) :
    (_add_log s rid ts lv msg).history =
      s.history ++ [⟨s.log_counter, rid, ts, lv, msg⟩] := rfl

theorem add_log_logs_present (s : OrchState) (rid ts : String) (lv : LogLevel) (msg : String)
    (h : (dictGet? s.logs rid).isSome = true) :
    (_add_log s rid ts lv msg).logs =
      dictUpdate s.logs rid (fun l => l ++ [⟨s.log_counter, rid, ts, lv, msg⟩]) := by
  simp [_add_log, h]

theorem set_status_logs (s : OrchState) (rid : String) (st : RunStatus) :
    (setRunStatus s rid st).logs = s.logs := rfl

theorem set_status_counter (s : OrchState) (rid : String) (st : RunStatus) :
    (setRunStatus s rid st).log_counter = s.log_counter := rfl

theorem set_status_history (s : OrchState) (rid : String) (st : RunStatus) :
    (setRunStatus s rid st).history = s.history := rfl

theorem set_status_runs (s : OrchState) (rid : String) (st : RunStatus) :
    (setRunStatus s rid st).runs =
      dictUpdate s.runs rid (fun r => { r with status := st }) := rfl

theorem dictKeys_append_single {α : Type} (l : List (String × α)) (k : String) (v : α) :
    dictKeys (l ++ [(k, v)]) = dictKeys l ++ [k] := by
  simp [dictKeys]

theorem dictGet?_mem_keys {α : Type} {l : List (String × α)} {k : String} {v : α}
    (h : dictGet? l k = some v) : k ∈ dictKeys l :=
  (dictGet?_isSome_iff_mem l k).1 (by simp [h])

theorem dictUpdate_preserves_id {l : List (String × RunRec)} {k : String} {st : RunStatus}
    (h : ∀ p ∈ l, p.2.id = p.1) :
    ∀ p ∈ dictUpdate l k (fun r => { r with status := st }), p.2.id = p.1 := by
  induction l with
  | nil =>
    intro p hp
    simp [dictUpdate] at hp
  | cons q rest ih =>
    intro p hp
    rw [show dictUpdate (q :: rest) k (fun r => { r with status := st }) =
      if q.1 = k then (q.1, { q.2 with status := st }) :: rest
      else q :: dictUpdate rest k (fun r => { r with status := st }) from rfl] at hp
    by_cases hq : q.1 = k
    · rw [if_pos hq] at hp
      rcases List.mem_cons.1 hp with rfl | hp
      · exact h q (List.mem_cons_self q rest)
      · exact h p (List.mem_cons_of_mem q hp)
    · rw [if_neg hq] at hp
      rcases List.mem_cons.1 hp with rfl | hp
      · exact h p (List.mem_cons_self p rest)
      · exact ih (fun r hr => h r (List.mem_cons_of_mem q hr)) p hp

/-! ### Invariant preservation -/

theorem goodState_init : goodState initState := by
  refine ⟨by simp [initState], rfl, ?_, by simp [initState]⟩
  intro i h
  simp [initState, dictKeys] at h

theorem goodState_set_status {s : OrchState} (hs : goodState s) (rid : String)
    (st : RunStatus) : goodState (setRunStatus s rid st) := by
  obtain ⟨h1, h2, h3, h4⟩ := hs
  refine ⟨h1, ?_, ?_, ?_⟩
  · rw [set_status_logs, set_status_runs, dictKeys_update]
    exact h2
  · rw [set_status_runs, dictKeys_update]
    exact h3
  · rw [set_status_runs]
    exact dictUpdate_preserves_id h4

theorem goodState_add_log {s : OrchState} (hs : goodState s) (rid ts : String)
    (lv : LogLevel) (msg : String) (hmem : rid ∈ dictKeys s.logs) :
    goodState (_add_log s rid ts lv msg) := by
  obtain ⟨h1, h2, h3, h4⟩ := hs
  have hsome : (dictGet? s.logs rid).isSome = true := (dictGet?_isSome_iff_mem _ _).2 hmem
  refine ⟨?_, ?_, ?_, ?_⟩
  · rw [add_log_history, add_log_counter, List.map_append, h1]
    simp [List.range_succ]
  · rw [add_log_logs_present s rid ts lv msg hsome, add_log_runs, dictKeys_update]
    exact h2
  · rw [add_log_runs]
    exact h3
  · rw [add_log_runs]
    exact h4

theorem logs_keys_add_log (s : OrchState) (rid ts : String) (lv : LogLevel) (msg : String)
    (hsome : (dictGet? s.logs rid).isSome = true) :
    dictKeys (_add_log s rid ts lv msg).logs = dictKeys s.logs := by
  rw [add_log_logs_present s rid ts lv msg hsome, dictKeys_update]

/-! ### Branch characterizations of the two mutating handlers -/

/-- The state after the registry insert and the upload attempt. -/
def createBase (cfg : OrchConfig) (req : CreateRunRequest) (ts : String)
    (s : OrchState) : OrchState :=
  { s with
    runs := dictInsert s.runs (mkRunId s.runs.length ts) (newRun req ts (mkRunId s.runs.length ts)),
    logs := dictInsert s.logs (mkRunId s.runs.length ts) [],
    metrics := dictInsert s.metrics (mkRunId s.runs.length ts) [],
    extCalls := s.extCalls ++ [ExtCall.putObject cfg.artifactsBucket
      (glueKey (mkRunId s.runs.length ts))] }

/-- `createBase` plus the recorded submission attempt. -/
def createSubmitted (cfg : OrchConfig) (req : CreateRunRequest) (ts : String)
    (s : OrchState) : OrchState :=
  { createBase cfg req ts s with
    extCalls := (s.extCalls ++ [ExtCall.putObject cfg.artifactsBucket
      (glueKey (mkRunId s.runs.length ts))]) ++
      [ExtCall.createJob (jobName (mkRunId s.runs.length ts))] }

theorem create_run_uploadFail (cfg : OrchConfig) (req : CreateRunRequest) (ts : String)
    (k : Bool) (er : String) (s : OrchState) :
    create_run cfg req ts false k er s =
      (Except.error ApiError.uploadFailed, createBase cfg req ts s) := rfl

theorem create_run_submitFail (cfg : OrchConfig) (req : CreateRunRequest) (ts er : String)
    (s : OrchState) :
    create_run cfg req ts true false er s =
      (Except.error ApiError.submitFailed,
        _add_log (setRunStatus (createSubmitted cfg req ts s)
          (mkRunId s.runs.length ts) RunStatus.failed)
          (mkRunId s.runs.length ts) ts LogLevel.error
          ("Failed to create Kubernetes job: " ++ er)) := rfl

theorem create_run_ok (cfg : OrchConfig) (req : CreateRunRequest) (ts er : String)
    (s : OrchState) :
    create_run cfg req ts true true er s =
      (Except.ok { newRun req ts (mkRunId s.runs.length ts) with status := RunStatus.running },
        _add_log (_add_log (setRunStatus (createSubmitted cfg req ts s)
            (mkRunId s.runs.length ts) RunStatus.running)
          (mkRunId s.runs.length ts) ts LogLevel.info "Kubernetes job created and started")
          (mkRunId s.runs.length ts) ts LogLevel.info
          ("Run " ++ req.name ++ " created and queued")) := rfl

theorem cancel_run_notFound (rid : String) (d : Bool) (ts : String) (s : OrchState)
    (h : dictGet? s.runs rid = none) :
    cancel_run rid d ts s = (Except.error ApiError.notFound, s) := by
  unfold cancel_run
  rw [h]

theorem cancel_run_invalid (rid : String) (d : Bool) (ts : String) (s : OrchState)
    (run : RunRec) (h : dictGet? s.runs rid = some run)
    (hst : ¬(run.status = RunStatus.pending ∨ run.status = RunStatus.running)) :
    cancel_run rid d ts s = (Except.error ApiError.invalidState, s) := by
  unfold cancel_run
  rw [h]
  simp [hst]

theorem cancel_run_deleteFail (rid ts : String) (s : OrchState) (run : RunRec)
    (h : dictGet? s.runs rid = some run)
    (hst : run.status = RunStatus.pending ∨ run.status = RunStatus.running) :
    cancel_run rid false ts s =
      (Except.error ApiError.cancelFailed,
        { s with extCalls := s.extCalls ++ [ExtCall.deleteJob (jobName rid)] }) := by
  unfold cancel_run
  rw [h]
  simp [hst]

theorem cancel_run_ok (rid ts : String) (s : OrchState) (run : RunRec)
    (h : dictGet? s.runs rid = some run)
    (hst : run.status = RunStatus.pending ∨ run.status = RunStatus.running) :
    cancel_run rid true ts s =
      (Except.ok (),
        _add_log (setRunStatus
            { s with extCalls := s.extCalls ++ [ExtCall.deleteJob (jobName rid)] }
            rid RunStatus.cancelled)
          rid ts LogLevel.info "Run cancelled by user") := by
  unfold cancel_run
  rw [h]
  simp [hst]

/-! ### Invariant preservation for the two handlers -/

theorem createBase_runs (cfg : OrchConfig) (req : CreateRunRequest) (ts : String)
    (s : OrchState) (hs : goodState s) :
    (createBase cfg req ts s).runs =
      s.runs ++ [(mkRunId s.runs.length ts, newRun req ts (mkRunId s.runs.length ts))] := by
  show dictInsert s.runs (mkRunId s.runs.length ts) (newRun req ts (mkRunId s.runs.length ts)) = _
  exact dictInsert_of_not_mem _ _ _ (mkRunId_fresh hs ts)

theorem createBase_logs (cfg : OrchConfig) (req : CreateRunRequest) (ts : String)
    (s : OrchState) (hs : goodState s) :
    (createBase cfg req ts s).logs = s.logs ++ [(mkRunId s.runs.length ts, [])] := by
  show dictInsert s.logs (mkRunId s.runs.length ts) [] = _
  refine dictInsert_of_not_mem _ _ _ ?_
  rw [hs.2.1]
  exact mkRunId_fresh hs ts

theorem goodState_createBase (cfg : OrchConfig) (req : CreateRunRequest) (ts : String)
    {s : OrchState} (hs : goodState s) : goodState (createBase cfg req ts s) := by
  obtain ⟨h1, h2, h3, h4⟩ := hs
  refine ⟨h1, ?_, ?_, ?_⟩
  · rw [createBase_logs cfg req ts s ⟨h1, h2, h3, h4⟩,
      createBase_runs cfg req ts s ⟨h1, h2, h3, h4⟩,
      dictKeys_append_single, dictKeys_append_single, h2]
  · rw [createBase_runs cfg req ts s ⟨h1, h2, h3, h4⟩, dictKeys_append_single]
    have hlen : s.runs.length = (dictKeys s.runs).length := by simp [dictKeys]
    rw [hlen]
    exact keysIndexed_append h3 ts
  · rw [createBase_runs cfg req ts s ⟨h1, h2, h3, h4⟩]
    intro p hp
    rcases List.mem_append.1 hp with hp | hp
    · exact h4 p hp
    · rcases List.mem_singleton.1 hp with rfl
      rfl

theorem goodState_createSubmitted (cfg : OrchConfig) (req : CreateRunRequest) (ts : String)
    {s : OrchState} (hs : goodState s) : goodState (createSubmitted cfg req ts s) :=
  goodState_createBase cfg req ts hs

theorem mem_logs_keys_createSubmitted (cfg : OrchConfig) (req : CreateRunRequest)
    (ts : String) (s : OrchState) (hs : goodState s) :
    mkRunId s.runs.length ts ∈ dictKeys (createSubmitted cfg req ts s).logs := by
  show mkRunId s.runs.length ts ∈ dictKeys (createBase cfg req ts s).logs
  rw [createBase_logs cfg req ts s hs, dictKeys_append_single]
  simp

theorem goodState_create (cfg : OrchConfig) (req : CreateRunRequest) (ts : String)
    (u k : Bool) (er : String) {s : OrchState} (hs : goodState s) :
    goodState (create_run cfg req ts u k er s).2 := by
  cases u
  · rw [create_run_uploadFail]
    exact goodState_createBase cfg req ts hs
  · cases k
    · rw [create_run_submitFail]
      have hg := goodState_set_status (goodState_createSubmitted cfg req ts hs)
        (mkRunId s.runs.length ts) RunStatus.failed
      refine goodState_add_log hg _ _ _ _ ?_
      rw [set_status_logs]
      exact mem_logs_keys_createSubmitted cfg req ts s hs
    · rw [create_run_ok]
      have hg := goodState_set_status (goodState_createSubmitted cfg req ts hs)
        (mkRunId s.runs.length ts) RunStatus.running
      have hm1 : mkRunId s.runs.length ts ∈
          dictKeys (setRunStatus (createSubmitted cfg req ts s)
            (mkRunId s.runs.length ts) RunStatus.running).logs := by
        rw [set_status_logs]
        exact mem_logs_keys_createSubmitted cfg req ts s hs
      have hg5 := goodState_add_log hg (mkRunId s.runs.length ts) ts LogLevel.info
        "Kubernetes job created and started" hm1
      refine goodState_add_log hg5 _ _ _ _ ?_
      rw [logs_keys_add_log _ _ _ _ _ ((dictGet?_isSome_iff_mem _ _).2 hm1)]
      exact hm1

theorem goodState_cancel (rid : String) (d : Bool) (ts : String) {s : OrchState}
    (hs : goodState s) : goodState (cancel_run rid d ts s).2 := by
  rcases hru : dictGet? s.runs rid with _ | run
  · rw [cancel_run_notFound rid d ts s hru]
    exact hs
  · by_cases hst : run.status = RunStatus.pending ∨ run.status = RunStatus.running
    · cases d
      · rw [cancel_run_deleteFail rid ts s run hru hst]
        exact hs
      · rw [cancel_run_ok rid ts s run hru hst]
        have hs1 : goodState
            { s with extCalls := s.extCalls ++ [ExtCall.deleteJob (jobName rid)] } := hs
        have hg := goodState_set_status hs1 rid RunStatus.cancelled
        refine goodState_add_log hg _ _ _ _ ?_
        rw [set_status_logs]
        show rid ∈ dictKeys s.logs
        rw [hs.2.1]
        exact dictGet?_mem_keys hru
    · rw [cancel_run_invalid rid d ts s run hru hst]
      exact hs

theorem goodState_applyOp (cfg : OrchConfig) (op : OrchOp) {s : OrchState}
    (hs : goodState s) : goodState (applyOp cfg s op) := by
  cases op with
  | create req ts u k e => exact goodState_create cfg req ts u k e hs
  | cancel rid d ts => exact goodState_cancel rid d ts hs

theorem goodState_foldl (cfg : OrchConfig) (ops : List OrchOp) :
    ∀ s : OrchState, goodState s → goodState (ops.foldl (applyOp cfg) s) := by
  induction ops with
  | nil => exact fun s hs => hs
  | cons op rest ih =>
    intro s hs
    exact ih _ (goodState_applyOp cfg op hs)

theorem goodState_runOps (cfg : OrchConfig) (ops : List OrchOp) :
    goodState (runOps cfg ops) :=
  goodState_foldl cfg ops initState goodState_init

theorem runOps_append_single (cfg : OrchConfig) (ops : List OrchOp) (op : OrchOp) :
    runOps cfg (ops ++ [op]) = applyOp cfg (runOps cfg ops) op := by
  unfold runOps
  rw [List.foldl_append]
  rfl

/-! ### Lookup behaviour of the handlers -/

theorem dictGet?_append_single_ne {α : Type} (l : List (String × α)) (k k' : String) (v : α)
    (h : k' ≠ k) : dictGet? (l ++ [(k, v)]) k' = dictGet? l k' := by
  induction l with
  | nil =>
    have : k ≠ k' := fun hh => h hh.symm
    simp [dictGet?, this]
  | cons p rest ih =>
    by_cases hp : p.1 = k' <;> simp [dictGet?, hp, ih]

theorem dictGet?_append_single_none {α : Type} (l : List (String × α)) (k : String) (v : α)
    (h : dictGet? l k = none) : dictGet? (l ++ [(k, v)]) k = some v := by
  induction l with
  | nil => simp [dictGet?]
  | cons p rest ih =>
    by_cases hp : p.1 = k
    · simp [dictGet?, hp] at h
    · simp only [dictGet?, hp, if_false] at h
      simp [dictGet?, hp, ih h]

theorem add_log_logs_lookup_ne (s : OrchState) (rid ts : String) (lv : LogLevel)
    (msg : String) (id : String) (hne : id ≠ rid) :
    dictGet? (_add_log s rid ts lv msg).logs id = dictGet? s.logs id := by
  unfold _add_log
  by_cases h : (dictGet? s.logs rid).isSome = true
  · simp only [h, if_true]
    exact dictGet?_update_ne _ _ _ _ hne
  · simp only [h, if_false]
    exact dictGet?_append_single_ne _ _ _ _ hne

theorem add_log_logs_lookup_self (s : OrchState) (rid ts : String) (lv : LogLevel)
    (msg : String) :
    dictGet? (_add_log s rid ts lv msg).logs rid =
      some ((dictGet? s.logs rid).getD [] ++ [⟨s.log_counter, rid, ts, lv, msg⟩]) := by
  unfold _add_log
  rcases hg : dictGet? s.logs rid with _ | l
  · have : ¬ (dictGet? s.logs rid).isSome = true := by simp [hg]
    simp only [this, if_false]
    simpa using dictGet?_append_single_none _ _ _ hg
  · simp only [Option.isSome_some, if_true]
    rw [dictGet?_update_self, hg]
    rfl

theorem create_run_runs_lookup_ne (cfg : OrchConfig) (req : CreateRunRequest) (ts : String)
    (u k : Bool) (er : String) (s : OrchState) (id : String)
    (hne : id ≠ mkRunId s.runs.length ts) :
    dictGet? (create_run cfg req ts u k er s).2.runs id = dictGet? s.runs id := by
  cases u
  · rw [create_run_uploadFail]
    exact dictGet?_insert_ne _ _ _ _ hne
  · cases k
    · rw [create_run_submitFail, add_log_runs, set_status_runs]
      rw [show (createSubmitted cfg req ts s).runs =
        dictInsert s.runs (mkRunId s.runs.length ts)
          (newRun req ts (mkRunId s.runs.length ts)) from rfl]
      rw [dictGet?_update_ne _ _ _ _ hne]
      exact dictGet?_insert_ne _ _ _ _ hne
    · rw [create_run_ok, add_log_runs, add_log_runs, set_status_runs]
      rw [show (createSubmitted cfg req ts s).runs =
        dictInsert s.runs (mkRunId s.runs.length ts)
          (newRun req ts (mkRunId s.runs.length ts)) from rfl]
      rw [dictGet?_update_ne _ _ _ _ hne]
      exact dictGet?_insert_ne _ _ _ _ hne

theorem create_run_runs_lookup_self (cfg : OrchConfig) (req : CreateRunRequest) (ts : String)
    (u k : Bool) (er : String) (s : OrchState) :
    dictGet? (create_run cfg req ts u k er s).2.runs (mkRunId s.runs.length ts) =
      some { newRun req ts (mkRunId s.runs.length ts) with status :=
        if u = false then RunStatus.pending
        else if k then RunStatus.running else RunStatus.failed } := by
  cases u
  · rw [create_run_uploadFail]
    simp only [if_pos rfl]
    exact dictGet?_insert_self _ _ _
  · cases k
    · rw [create_run_submitFail, add_log_runs, set_status_runs]
      rw [show (createSubmitted cfg req ts s).runs =
        dictInsert s.runs (mkRunId s.runs.length ts)
          (newRun req ts (mkRunId s.runs.length ts)) from rfl]
      rw [dictGet?_update_self, dictGet?_insert_self]
      rfl
    · rw [create_run_ok, add_log_runs, add_log_runs, set_status_runs]
      rw [show (createSubmitted cfg req ts s).runs =
        dictInsert s.runs (mkRunId s.runs.length ts)
          (newRun req ts (mkRunId s.runs.length ts)) from rfl]
      rw [dictGet?_update_self, dictGet?_insert_self]
      rfl

theorem cancel_run_runs_lookup_ne (rid : String) (d : Bool) (ts : String) (s : OrchState)
    (id : String) (hne : id ≠ rid) :
    dictGet? (cancel_run rid d ts s).2.runs id = dictGet? s.runs id := by
  rcases hru : dictGet? s.runs rid with _ | run
  · rw [cancel_run_notFound rid d ts s hru]
  · by_cases hst : run.status = RunStatus.pending ∨ run.status = RunStatus.running
    · cases d
      · rw [cancel_run_deleteFail rid ts s run hru hst]
      · rw [cancel_run_ok rid ts s run hru hst, add_log_runs, set_status_runs]
        exact dictGet?_update_ne _ _ _ _ hne
    · rw [cancel_run_invalid rid d ts s run hru hst]

theorem cancel_run_runs_lookup_self (rid : String) (ts : String) (s : OrchState)
    (run : RunRec) (hru : dictGet? s.runs rid = some run)
    (hst : run.status = RunStatus.pending ∨ run.status = RunStatus.running) :
    dictGet? (cancel_run rid true ts s).2.runs rid =
      some { run with status := RunStatus.cancelled } := by
  rw [cancel_run_ok rid ts s run hru hst, add_log_runs, set_status_runs]
  rw [dictGet?_update_self]
  rw [show ({ s with extCalls := s.extCalls ++ [ExtCall.deleteJob (jobName rid)] }
    : OrchState).runs = s.runs from rfl]
  rw [hru]
  rfl

theorem create_run_logs_lookup_ne (cfg : OrchConfig) (req : CreateRunRequest) (ts : String)
    (u k : Bool) (er : String) (s : OrchState) (id : String)
    (hne : id ≠ mkRunId s.runs.length ts) :
    dictGet? (create_run cfg req ts u k er s).2.logs id = dictGet? s.logs id := by
  cases u
  · rw [create_run_uploadFail]
    exact dictGet?_insert_ne _ _ _ _ hne
  · cases k
    · rw [create_run_submitFail, add_log_logs_lookup_ne _ _ _ _ _ _ hne, set_status_logs]
      exact dictGet?_insert_ne _ _ _ _ hne
    · rw [create_run_ok, add_log_logs_lookup_ne _ _ _ _ _ _ hne,
        add_log_logs_lookup_ne _ _ _ _ _ _ hne, set_status_logs]
      exact dictGet?_insert_ne _ _ _ _ hne

theorem cancel_run_logs_lookup_ne (rid : String) (d : Bool) (ts : String) (s : OrchState)
    (id : String) (hne : id ≠ rid) :
    dictGet? (cancel_run rid d ts s).2.logs id = dictGet? s.logs id := by
  rcases hru : dictGet? s.runs rid with _ | run
  · rw [cancel_run_notFound rid d ts s hru]
  · by_cases hst : run.status = RunStatus.pending ∨ run.status = RunStatus.running
    · cases d
      · rw [cancel_run_deleteFail rid ts s run hru hst]
      · rw [cancel_run_ok rid ts s run hru hst, add_log_logs_lookup_ne _ _ _ _ _ _ hne,
          set_status_logs]
    · rw [cancel_run_invalid rid d ts s run hru hst]

/-! ### Claim C2 (checkpoint locators of the workload descriptor) -/

/-- A concrete run with no checkpoint-in. -/
def exRun : RunRec := newRun exReq "T" "run-1-T"

/-- Claim C2 is false on the code: for a run created with no checkpoint-in,
the monty (brain-runtime) container's `CHECKPOINT_OUT` env value is the
in-pod path `/checkpoints/out.mstate`, not the derived locator
`s3://<checkpoint-bucket>/checkpoints/<run-id>/out.mstate`. -/
theorem c2_counterexample :
    exRun.checkpointIn = none ∧
    containerEnv (_prepare_job_template exCfg exRun 3600) "monty" "CHECKPOINT_IN" =
      some "" ∧
    containerEnv (_prepare_job_template exCfg exRun 3600) "monty" "CHECKPOINT_OUT" =
      some "/checkpoints/out.mstate" ∧
    s3CheckpointOutLoc exCfg exRun.id =
      "s3://monty-checkpoints-dev/checkpoints/run-1-T/out.mstate" ∧
    containerEnv (_prepare_job_template exCfg exRun 3600) "monty" "CHECKPOINT_OUT" ≠
      some (s3CheckpointOutLoc exCfg exRun.id) := by
  refine ⟨rfl, rfl, rfl, rfl, ?_⟩
  decide

theorem string_append_chain (s1 a s2 b s3 : String) :
    s1 ++ a ++ (s2 ++ (b ++ s3)) = ((s1 ++ a) ++ s2) ++ b ++ s3 := by
  simp [String.append_assoc]

theorem uploaderScript_contains_ckpt (a b : String) :
    ∃ pre post, uploaderScript a b = pre ++ b ++ post := by
  unfold uploaderScript
  exact ⟨_, _, string_append_chain _ a _ b _⟩

/-- Claim C2 (amended): for every run with no checkpoint-in, the monty
container's `CHECKPOINT_IN` value is the empty string and its
`CHECKPOINT_OUT` value is the in-pod path `/checkpoints/out.mstate`; the
derived locator `s3://<checkpoint-bucket>/checkpoints/<run-id>/out.mstate`
appears (as the copy destination) in the artifact-uploader sidecar's
command instead. -/
theorem c2_amended (cfg : OrchConfig) (run : RunRec) (dl : Nat)
    (h : run.checkpointIn = none) :
    containerEnv (_prepare_job_template cfg run dl) "monty" "CHECKPOINT_IN" = some "" ∧
    containerEnv (_prepare_job_template cfg run dl) "monty" "CHECKPOINT_OUT" =
      some "/checkpoints/out.mstate" ∧
    ∃ pre post, uploaderScriptOf (_prepare_job_template cfg run dl) =
      some (pre ++ s3CheckpointOutLoc cfg run.id ++ post) := by
  refine ⟨?_, ?_, ?_⟩
  · have e1 : containerEnv (_prepare_job_template cfg run dl) "monty" "CHECKPOINT_IN" =
        some (run.checkpointIn.getD "") := rfl
    rw [e1, h]
    rfl
  · rfl
  · have e2 : uploaderScriptOf (_prepare_job_template cfg run dl) =
        some (uploaderScript ("s3://" ++ cfg.artifactsBucket ++ "/runs/" ++ run.id ++
          "/artifacts") (s3CheckpointOutLoc cfg run.id)) := rfl
    rw [e2]
    obtain ⟨pre, post, hp⟩ := uploaderScript_contains_ckpt
      ("s3://" ++ cfg.artifactsBucket ++ "/runs/" ++ run.id ++ "/artifacts")
      (s3CheckpointOutLoc cfg run.id)
    exact ⟨pre, post, by rw [hp]⟩

/-- Witness for C2 (amended) at a concrete configuration and run. -/
theorem c2_witness :
    containerEnv (_prepare_job_template exCfg exRun 3600) "monty" "CHECKPOINT_IN" =
      some "" ∧
    containerEnv (_prepare_job_template exCfg exRun 3600) "monty" "CHECKPOINT_OUT" =
      some "/checkpoints/out.mstate" ∧
    ∃ pre post, uploaderScriptOf (_prepare_job_template exCfg exRun 3600) =
      some (pre ++ s3CheckpointOutLoc exCfg exRun.id ++ post) :=
  c2_amended exCfg exRun 3600 rfl

/-! ### Claim C3 (broadcast delivery) -/

/-- A connection whose `send_text` raises. -/
def exConnFail : Conn := ⟨0, true⟩

/-- A healthy connection. -/
def exConnOk : Conn := ⟨1, false⟩

/-- Claim C3 fails on the code (code bug): with two connected observers
where sending to the first raises, `_broadcast_log` removes the first
observer from `active_connections` while the `for` loop is iterating that
same list, so the second observer is skipped: the entry is delivered to
nobody, even though the second observer is connected and healthy.  (The
failed observer is removed, as the claim says.) -/
theorem c3_broadcast_skips_after_failure :
    pyBroadcast [exConnFail, exConnOk] = ([], [exConnOk]) ∧
    exConnOk ∉ (pyBroadcast [exConnFail, exConnOk]).1 ∧
    exConnFail ∉ (pyBroadcast [exConnFail, exConnOk]).2 := by
  refine ⟨rfl, ?_, ?_⟩ <;> decide

/-! ### Claim C8 (builder determinism) -/

/-- Replace the monty container's `CHECKPOINT_IN` value in a descriptor. -/
def setMontyCheckpointIn (t : JobTemplate) (v : String) : JobTemplate :=
  { t with containers := t.containers.map (fun c =>
      if c.name = "monty" then
        { c with env := c.env.map (fun e =>
            if e.name = "CHECKPOINT_IN" then { e with value := v } else e) }
      else c) }

/-- Claim C8: the workload-descriptor builder is deterministic — equal
`(run, deadline)` inputs under one configuration give identical descriptors —
and two runs differing only in `checkpointIn` give descriptors differing
only in the monty container's `CHECKPOINT_IN` env value. -/
theorem c8_builder_deterministic :
    (∀ (cfg : OrchConfig) (r1 r2 : RunRec) (d1 d2 : Nat), r1 = r2 → d1 = d2 →
      _prepare_job_template cfg r1 d1 = _prepare_job_template cfg r2 d2) ∧
    (∀ (cfg : OrchConfig) (r : RunRec) (c : Option String) (d : Nat),
      _prepare_job_template cfg { r with checkpointIn := c } d =
        setMontyCheckpointIn (_prepare_job_template cfg r d) (c.getD "")) := by
  constructor
  · rintro cfg r1 r2 d1 d2 rfl rfl
    rfl
  · intro cfg r c d
    rfl

/-- Witness for C8 at concrete inputs. -/
theorem c8_witness :
    _prepare_job_template exCfg exRun 3600 = _prepare_job_template exCfg exRun 3600 ∧
    _prepare_job_template exCfg { exRun with checkpointIn := some "s3://b/ck.mstate" } 3600 =
      setMontyCheckpointIn (_prepare_job_template exCfg exRun 3600) "s3://b/ck.mstate" :=
  ⟨c8_builder_deterministic.1 exCfg exRun exRun 3600 3600 rfl rfl,
   c8_builder_deterministic.2 exCfg exRun (some "s3://b/ck.mstate") 3600⟩

/-! ### Claim C4 (upload failure during creation) -/

/-- Claim C4 is false on the code: when the bridge-code upload fails,
`_upload_glue_code` raises after writing only to the process logger — no
`Error`-level entry is appended to the run's log stream, which stays empty.
(The storage error is surfaced and the run does stay `Pending`.) -/
theorem c4_counterexample :
    (create_run exCfg exReq "T" false true "" initState).1 =
      Except.error ApiError.uploadFailed ∧
    (dictGet? (create_run exCfg exReq "T" false true "" initState).2.runs
      "run-1-T").map RunRec.status = some RunStatus.pending ∧
    dictGet? (create_run exCfg exReq "T" false true "" initState).2.logs "run-1-T" =
      some [] ∧
    ¬ ∃ e, e ∈ (dictGet? (create_run exCfg exReq "T" false true "" initState).2.logs
      "run-1-T").getD [] ∧ e.level = LogLevel.error := by
  refine ⟨rfl, by decide, by decide, ?_⟩
  rintro ⟨e, he, -⟩
  have h3 : dictGet? (create_run exCfg exReq "T" false true "" initState).2.logs
      "run-1-T" = some [] := by decide
  rw [h3] at he
  simp at he

/-- Claim C4 (amended): if the bridge-code upload fails during `create_run`,
the call surfaces the storage error, the run record remains present with
status `Pending`, and the run's log stream is left empty — no log entry is
appended (the failure is recorded only on the process logger). -/
theorem c4_upload_failure (cfg : OrchConfig) (req : CreateRunRequest) (ts : String)
    (k : Bool) (er : String) (s : OrchState) :
    (create_run cfg req ts false k er s).1 = Except.error ApiError.uploadFailed ∧
    (dictGet? (create_run cfg req ts false k er s).2.runs
      (mkRunId s.runs.length ts)).map RunRec.status = some RunStatus.pending ∧
    dictGet? (create_run cfg req ts false k er s).2.logs (mkRunId s.runs.length ts) =
      some [] := by
  refine ⟨by rw [create_run_uploadFail], ?_, ?_⟩
  · rw [create_run_runs_lookup_self]
    rfl
  · rw [create_run_uploadFail]
    exact dictGet?_insert_self _ _ _

/-! ### Claim C5 (scheduler submission failure during creation) -/

/-- Claim C5: if the scheduler submission fails during `create_run`, the
run's status becomes `Failed`, exactly one log entry — an `Error`-level one
carrying the upstream detail — is appended to the run's log stream, the
call returns an error, and the run remains retrievable via get and list. -/
theorem c5_submit_failure (cfg : OrchConfig) (req : CreateRunRequest) (ts er : String)
    (s : OrchState) :
    (create_run cfg req ts true false er s).1 = Except.error ApiError.submitFailed ∧
    (dictGet? (create_run cfg req ts true false er s).2.runs
      (mkRunId s.runs.length ts)).map RunRec.status = some RunStatus.failed ∧
    dictGet? (create_run cfg req ts true false er s).2.logs (mkRunId s.runs.length ts) =
      some [⟨s.log_counter, mkRunId s.runs.length ts, ts, LogLevel.error,
        "Failed to create Kubernetes job: " ++ er⟩] ∧
    (∃ r, get_run (create_run cfg req ts true false er s).2 (mkRunId s.runs.length ts) =
      Except.ok r ∧ r ∈ get_runs (create_run cfg req ts true false er s).2) := by
  refine ⟨by rw [create_run_submitFail], ?_, ?_, ?_⟩
  · rw [create_run_runs_lookup_self]
    rfl
  · rw [create_run_submitFail, add_log_logs_lookup_self, set_status_logs]
    rw [show (createSubmitted cfg req ts s).logs =
      dictInsert s.logs (mkRunId s.runs.length ts) [] from rfl]
    rw [dictGet?_insert_self]
    rfl
  · have hr := create_run_runs_lookup_self cfg req ts true false er s
    refine ⟨_, ?_, mem_values_of_dictGet? _ _ _ hr⟩
    unfold get_run
    rw [hr]

/-! ### Claim C10 (successful creation returns a Running run with two Info logs) -/

/-- Claim C10: when both the upload and the scheduler submission succeed,
`create_run` hands back the run object already in status `Running`, and the
run's log stream holds exactly two `Info` entries, first the job-started
entry and then the created-and-queued entry (with consecutive ids). -/
theorem c10_successful_create (cfg : OrchConfig) (req : CreateRunRequest) (ts er : String)
    (s : OrchState) :
    (create_run cfg req ts true true er s).1 =
      Except.ok { newRun req ts (mkRunId s.runs.length ts) with
        status := RunStatus.running } ∧
    dictGet? (create_run cfg req ts true true er s).2.logs (mkRunId s.runs.length ts) =
      some [⟨s.log_counter, mkRunId s.runs.length ts, ts, LogLevel.info,
          "Kubernetes job created and started"⟩,
        ⟨s.log_counter + 1, mkRunId s.runs.length ts, ts, LogLevel.info,
          "Run " ++ req.name ++ " created and queued"⟩] := by
  refine ⟨by rw [create_run_ok], ?_⟩
  rw [create_run_ok, add_log_logs_lookup_self, add_log_logs_lookup_self, set_status_logs]
  rw [show (createSubmitted cfg req ts s).logs =
    dictInsert s.logs (mkRunId s.runs.length ts) [] from rfl]
  rw [dictGet?_insert_self]
  rfl

/-! ### Claim C9 (cancelling a terminal run) -/

/-- Claim C9: a cancel request against a run in a terminal status fails with
the invalid-state error and changes nothing: the whole state — in
particular the run's log stream, the trace of external scheduler calls, and
the run's status — is untouched. -/
theorem c9_cancel_terminal (s : OrchState) (rid : String) (d : Bool) (ts : String)
    (run : RunRec) (h : dictGet? s.runs rid = some run)
    (ht : run.status = RunStatus.completed ∨ run.status = RunStatus.failed ∨
      run.status = RunStatus.cancelled) :
    (cancel_run rid d ts s).1 = Except.error ApiError.invalidState ∧
    (cancel_run rid d ts s).2 = s ∧
    (cancel_run rid d ts s).2.logs = s.logs ∧
    (cancel_run rid d ts s).2.extCalls = s.extCalls ∧
    (dictGet? (cancel_run rid d ts s).2.runs rid).map RunRec.status = some run.status := by
  have hst : ¬(run.status = RunStatus.pending ∨ run.status = RunStatus.running) := by
    rcases ht with h1 | h1 | h1 <;> simp [h1]
  rw [cancel_run_invalid rid d ts s run h hst]
  refine ⟨rfl, rfl, rfl, rfl, ?_⟩
  rw [h]
  rfl

/-- A state holding one `Completed` run. -/
def exTerminalState : OrchState :=
  { runs := [("run-1-T", { newRun exReq "T" "run-1-T" with status := RunStatus.completed })],
    logs := [("run-1-T", [])], metrics := [("run-1-T", [])], conns := [],
    log_counter := 0, extCalls := [], history := [] }

/-- Witness for C9: cancelling the concrete `Completed` run. -/
theorem c9_witness :
    (cancel_run "run-1-T" true "T2" exTerminalState).1 =
      Except.error ApiError.invalidState ∧
    (cancel_run "run-1-T" true "T2" exTerminalState).2 = exTerminalState ∧
    (cancel_run "run-1-T" true "T2" exTerminalState).2.logs = exTerminalState.logs ∧
    (cancel_run "run-1-T" true "T2" exTerminalState).2.extCalls =
      exTerminalState.extCalls ∧
    (dictGet? (cancel_run "run-1-T" true "T2" exTerminalState).2.runs "run-1-T").map
      RunRec.status = some RunStatus.completed :=
  c9_cancel_terminal exTerminalState "run-1-T" true "T2"
    { newRun exReq "T" "run-1-T" with status := RunStatus.completed } (by decide)
    (Or.inl rfl)

/-! ### Claim C1 (status transition edges) -/

/-- The edge set asserted by the specification. -/
def claimedEdges : List (RunStatus × RunStatus) :=
  [(RunStatus.pending, RunStatus.running), (RunStatus.pending, RunStatus.failed),
   (RunStatus.running, RunStatus.completed), (RunStatus.running, RunStatus.failed),
   (RunStatus.running, RunStatus.cancelled)]

/-- The edge set the code actually respects: `cancel_run` accepts `Pending`
runs too, adding the edge `Pending → Cancelled`. -/
def allowedEdges : List (RunStatus × RunStatus) :=
  (RunStatus.pending, RunStatus.cancelled) :: claimedEdges

/-- Claim C1 is false as stated: create a run whose bridge-code upload fails
(it stays `Pending`), then cancel it — the cancel succeeds and the status
moves `Pending → Cancelled`, an edge not in the claimed set. -/
theorem c1_counterexample :
    ((dictGet? (runOps exCfg [OrchOp.create exReq "T" false true ""]).runs
      "run-1-T").map RunRec.status = some RunStatus.pending) ∧
    ((dictGet? (runOps exCfg [OrchOp.create exReq "T" false true "",
        OrchOp.cancel "run-1-T" true "T2"]).runs "run-1-T").map RunRec.status =
      some RunStatus.cancelled) ∧
    (RunStatus.pending, RunStatus.cancelled) ∉ claimedEdges := by
  refine ⟨by decide, by decide, by decide⟩

/-- Claim C1 (amended): across any sequence of core operations from startup,
a stored run's status only ever moves along the edges Pending→Running,
Pending→Failed, Pending→Cancelled, Running→{Completed,Failed,Cancelled}
(the extra edge Pending→Cancelled arises because cancel accepts `Pending`
runs); a run observed right after its creating operation is in `Pending`,
`Running` or `Failed`; and a cancel requested against a terminal run fails
with the invalid-state error, leaving the state unchanged. -/
theorem c1_amended :
    (∀ (cfg : OrchConfig) (ops : List OrchOp) (op : OrchOp) (id : String) (r r' : RunRec),
      dictGet? (runOps cfg ops).runs id = some r →
      dictGet? (runOps cfg (ops ++ [op])).runs id = some r' →
      r.status = r'.status ∨ (r.status, r'.status) ∈ allowedEdges) ∧
    (∀ (cfg : OrchConfig) (ops : List OrchOp) (op : OrchOp) (id : String) (r' : RunRec),
      dictGet? (runOps cfg ops).runs id = none →
      dictGet? (runOps cfg (ops ++ [op])).runs id = some r' →
      r'.status = RunStatus.pending ∨ r'.status = RunStatus.running ∨
        r'.status = RunStatus.failed) ∧
    (∀ (s : OrchState) (rid : String) (d : Bool) (ts : String) (run : RunRec),
      dictGet? s.runs rid = some run →
      (run.status = RunStatus.completed ∨ run.status = RunStatus.failed ∨
        run.status = RunStatus.cancelled) →
      cancel_run rid d ts s = (Except.error ApiError.invalidState, s)) := by
  refine ⟨?_, ?_, ?_⟩
  · intro cfg ops op id r r' h h'
    rw [runOps_append_single] at h'
    have hs := goodState_runOps cfg ops
    cases op with
    | create req ts u k e =>
      have hmem : id ∈ dictKeys (runOps cfg ops).runs := dictGet?_mem_keys h
      have hne : id ≠ mkRunId (runOps cfg ops).runs.length ts := by
        intro hc
        exact mkRunId_fresh hs ts (hc ▸ hmem)
      rw [show applyOp cfg (runOps cfg ops) (OrchOp.create req ts u k e) =
        (create_run cfg req ts u k e (runOps cfg ops)).2 from rfl] at h'
      rw [create_run_runs_lookup_ne cfg req ts u k e (runOps cfg ops) id hne, h] at h'
      left
      rw [Option.some.injEq] at h'
      rw [h']
    | cancel rid d ts =>
      rw [show applyOp cfg (runOps cfg ops) (OrchOp.cancel rid d ts) =
        (cancel_run rid d ts (runOps cfg ops)).2 from rfl] at h'
      by_cases hid : id = rid
      · subst hid
        rcases hru : dictGet? (runOps cfg ops).runs id with _ | run
        · rw [hru] at h
          exact absurd h (by simp)
        · rw [hru] at h
          rw [Option.some.injEq] at h
          subst h
          by_cases hst : run.status = RunStatus.pending ∨ run.status = RunStatus.running
          · cases d
            · rw [cancel_run_deleteFail id ts (runOps cfg ops) run hru hst] at h'
              rw [show ({ runOps cfg ops with extCalls := (runOps cfg ops).extCalls ++
                [ExtCall.deleteJob (jobName id)] } : OrchState).runs =
                (runOps cfg ops).runs from rfl, hru, Option.some.injEq] at h'
              left
              rw [h']
            · rw [cancel_run_runs_lookup_self id ts (runOps cfg ops) run hru hst,
                Option.some.injEq] at h'
              subst h'
              have h2 : ({ run with status := RunStatus.cancelled } : RunRec).status =
                  RunStatus.cancelled := rfl
              right
              rw [h2]
              rcases hst with h1 | h1 <;> rw [h1] <;> decide
          · rw [cancel_run_invalid id d ts (runOps cfg ops) run hru hst] at h'
            rw [hru, Option.some.injEq] at h'
            left
            rw [h']
      · rw [cancel_run_runs_lookup_ne rid d ts (runOps cfg ops) id hid, h,
          Option.some.injEq] at h'
        left
        rw [h']
  · intro cfg ops op id r' h h'
    rw [runOps_append_single] at h'
    have hs := goodState_runOps cfg ops
    cases op with
    | create req ts u k e =>
      rw [show applyOp cfg (runOps cfg ops) (OrchOp.create req ts u k e) =
        (create_run cfg req ts u k e (runOps cfg ops)).2 from rfl] at h'
      by_cases hid : id = mkRunId (runOps cfg ops).runs.length ts
      · subst hid
        rw [create_run_runs_lookup_self cfg req ts u k e (runOps cfg ops),
          Option.some.injEq] at h'
        subst h'
        cases u
        · left
          rfl
        · cases k
          · right
            right
            rfl
          · right
            left
            rfl
      · rw [create_run_runs_lookup_ne cfg req ts u k e (runOps cfg ops) id hid, h] at h'
        exact absurd h' (by simp)
    | cancel rid d ts =>
      rw [show applyOp cfg (runOps cfg ops) (OrchOp.cancel rid d ts) =
        (cancel_run rid d ts (runOps cfg ops)).2 from rfl] at h'
      by_cases hid : id = rid
      · subst hid
        rw [cancel_run_notFound id d ts (runOps cfg ops) h, h] at h'
        exact absurd h' (by simp)
      · rw [cancel_run_runs_lookup_ne rid d ts (runOps cfg ops) id hid, h] at h'
        exact absurd h' (by simp)
  · intro s rid d ts run h ht
    have hst : ¬(run.status = RunStatus.pending ∨ run.status = RunStatus.running) := by
      rcases ht with h1 | h1 | h1 <;> simp [h1]
    exact cancel_run_invalid rid d ts s run h hst

/-- Witness for C1 (amended): a Running→Cancelled step along an allowed
edge, a freshly created run in `Pending`, and an invalid cancel of a
`Completed` run. -/
theorem c1_witness :
    (RunStatus.running = RunStatus.cancelled ∨
      (RunStatus.running, RunStatus.cancelled) ∈ allowedEdges) ∧
    (RunStatus.pending = RunStatus.pending ∨ RunStatus.pending = RunStatus.running ∨
      RunStatus.pending = RunStatus.failed) ∧
    cancel_run "run-1-T" true "T2" exTerminalState =
      (Except.error ApiError.invalidState, exTerminalState) :=
  ⟨c1_amended.1 exCfg [OrchOp.create exReq "T" true true ""]
      (OrchOp.cancel "run-1-T" true "T2") "run-1-T"
      { newRun exReq "T" "run-1-T" with status := RunStatus.running }
      { newRun exReq "T" "run-1-T" with status := RunStatus.cancelled }
      (by decide) (by decide),
   c1_amended.2.1 exCfg [] (OrchOp.create exReq "T" false true "") "run-1-T"
      (newRun exReq "T" "run-1-T") (by decide) (by decide),
   c1_amended.2.2 exTerminalState "run-1-T" true "T2"
      { newRun exReq "T" "run-1-T" with status := RunStatus.completed } (by decide)
      (Or.inl rfl)⟩

/-! ### Claim C6 (log sequence ids, append-only log streams) -/

/-- Claim C6: across any sequence of core operations, the entries in the
process-wide append history carry the sequence ids `0, 1, 2, …` in exactly
the order they were appended — strictly increasing and never reused, across
all runs — and each run's log list is append-only: one more operation can
only extend it. -/
theorem c6_log_ids_and_append_only :
    (∀ (cfg : OrchConfig) (ops : List OrchOp),
      (runOps cfg ops).history.map (fun e => e.id) =
        List.range (runOps cfg ops).log_counter) ∧
    (∀ (cfg : OrchConfig) (ops : List OrchOp) (op : OrchOp) (id : String)
      (l l' : List LogEntry),
      dictGet? (runOps cfg ops).logs id = some l →
      dictGet? (runOps cfg (ops ++ [op])).logs id = some l' →
      ∃ t, l' = l ++ t) := by
  constructor
  · intro cfg ops
    exact (goodState_runOps cfg ops).1
  · intro cfg ops op id l l' h h'
    rw [runOps_append_single] at h'
    have hs := goodState_runOps cfg ops
    cases op with
    | create req ts u k e =>
      have hmem : id ∈ dictKeys (runOps cfg ops).logs := dictGet?_mem_keys h
      have hne : id ≠ mkRunId (runOps cfg ops).runs.length ts := by
        intro hc
        rw [hs.2.1] at hmem
        exact mkRunId_fresh hs ts (hc ▸ hmem)
      rw [show applyOp cfg (runOps cfg ops) (OrchOp.create req ts u k e) =
        (create_run cfg req ts u k e (runOps cfg ops)).2 from rfl] at h'
      rw [create_run_logs_lookup_ne cfg req ts u k e (runOps cfg ops) id hne, h,
        Option.some.injEq] at h'
      exact ⟨[], by rw [← h', List.append_nil]⟩
    | cancel rid d ts =>
      rw [show applyOp cfg (runOps cfg ops) (OrchOp.cancel rid d ts) =
        (cancel_run rid d ts (runOps cfg ops)).2 from rfl] at h'
      by_cases hid : id = rid
      · subst hid
        rcases hru : dictGet? (runOps cfg ops).runs id with _ | run
        · rw [cancel_run_notFound id d ts (runOps cfg ops) hru, h,
            Option.some.injEq] at h'
          exact ⟨[], by rw [← h', List.append_nil]⟩
        · by_cases hst : run.status = RunStatus.pending ∨ run.status = RunStatus.running
          · cases d
            · rw [cancel_run_deleteFail id ts (runOps cfg ops) run hru hst] at h'
              rw [show ({ runOps cfg ops with extCalls := (runOps cfg ops).extCalls ++
                [ExtCall.deleteJob (jobName id)] } : OrchState).logs =
                (runOps cfg ops).logs from rfl, h, Option.some.injEq] at h'
              exact ⟨[], by rw [← h', List.append_nil]⟩
            · rw [cancel_run_ok id ts (runOps cfg ops) run hru hst] at h'
              rw [add_log_logs_lookup_self, set_status_logs] at h'
              rw [show ({ runOps cfg ops with extCalls := (runOps cfg ops).extCalls ++
                [ExtCall.deleteJob (jobName id)] } : OrchState).logs =
                (runOps cfg ops).logs from rfl, h] at h'
              simp only [Option.getD_some, Option.some.injEq] at h'
              exact ⟨_, h'.symm⟩
          · rw [cancel_run_invalid id d ts (runOps cfg ops) run hru hst, h,
              Option.some.injEq] at h'
            exact ⟨[], by rw [← h', List.append_nil]⟩
      · rw [cancel_run_logs_lookup_ne rid d ts (runOps cfg ops) id hid, h,
          Option.some.injEq] at h'
        exact ⟨[], by rw [← h', List.append_nil]⟩

/-- Witness for C6 at a concrete trace: a successful create followed by a
cancel; the two creation entries stay a prefix of the extended log list. -/
theorem c6_witness :
    (runOps exCfg [OrchOp.create exReq "T" true true ""]).history.map (fun e => e.id) =
      List.range (runOps exCfg [OrchOp.create exReq "T" true true ""]).log_counter ∧
    ∃ t, ([⟨0, "run-1-T", "T", LogLevel.info, "Kubernetes job created and started"⟩,
        ⟨1, "run-1-T", "T", LogLevel.info, "Run demo created and queued"⟩,
        ⟨2, "run-1-T", "T2", LogLevel.info, "Run cancelled by user"⟩] : List LogEntry) =
      [⟨0, "run-1-T", "T", LogLevel.info, "Kubernetes job created and started"⟩,
        ⟨1, "run-1-T", "T", LogLevel.info, "Run demo created and queued"⟩] ++ t :=
  ⟨c6_log_ids_and_append_only.1 exCfg [OrchOp.create exReq "T" true true ""],
   c6_log_ids_and_append_only.2 exCfg [OrchOp.create exReq "T" true true ""]
     (OrchOp.cancel "run-1-T" true "T2") "run-1-T"
     [⟨0, "run-1-T", "T", LogLevel.info, "Kubernetes job created and started"⟩,
      ⟨1, "run-1-T", "T", LogLevel.info, "Run demo created and queued"⟩]
     [⟨0, "run-1-T", "T", LogLevel.info, "Kubernetes job created and started"⟩,
      ⟨1, "run-1-T", "T", LogLevel.info, "Run demo created and queued"⟩,
      ⟨2, "run-1-T", "T2", LogLevel.info, "Run cancelled by user"⟩]
     (by decide) (by decide)⟩

/-! ### Claim C7 (run identities pairwise distinct) -/

theorem dictUpdate_length {α : Type} (l : List (String × α)) (k : String) (f : α → α) :
    (dictUpdate l k f).length = l.length := by
  induction l with
  | nil => rfl
  | cons p rest ih =>
    by_cases h : p.1 = k
    · simp [dictUpdate, h]
    · simp only [dictUpdate, h, if_false, List.length_cons, ih]

theorem create_run_runs_length (cfg : OrchConfig) (req : CreateRunRequest) (ts : String)
    (u k : Bool) (er : String) (s : OrchState) :
    (create_run cfg req ts u k er s).2.runs.length =
      (dictInsert s.runs (mkRunId s.runs.length ts)
        (newRun req ts (mkRunId s.runs.length ts))).length := by
  cases u
  · rw [create_run_uploadFail]
    rfl
  · cases k
    · rw [create_run_submitFail, add_log_runs, set_status_runs]
      rw [show (createSubmitted cfg req ts s).runs =
        dictInsert s.runs (mkRunId s.runs.length ts)
          (newRun req ts (mkRunId s.runs.length ts)) from rfl]
      exact dictUpdate_length _ _ _
    · rw [create_run_ok, add_log_runs, add_log_runs, set_status_runs]
      rw [show (createSubmitted cfg req ts s).runs =
        dictInsert s.runs (mkRunId s.runs.length ts)
          (newRun req ts (mkRunId s.runs.length ts)) from rfl]
      exact dictUpdate_length _ _ _

/-- Claim C7: run identity allocation is collision-free against the
registry.  Across any sequence of core operations: the identity the next
`create_run` would allocate (for any clock reading) is not yet assigned to
any run; hence creation never overwrites — every run stored before a create
is still stored, unchanged, after it — and the registry grows by exactly
one run per create; and the identities of the stored runs are pairwise
distinct.  No identity is ever assigned to two different runs. -/
theorem c7_run_identity_freshness :
    (∀ (cfg : OrchConfig) (ops : List OrchOp) (ts : String),
      dictGet? (runOps cfg ops).runs (mkRunId (runOps cfg ops).runs.length ts) = none) ∧
    (∀ (cfg : OrchConfig) (ops : List OrchOp) (req : CreateRunRequest) (ts : String)
      (u k : Bool) (er : String) (id : String) (r : RunRec),
      dictGet? (runOps cfg ops).runs id = some r →
      dictGet? (runOps cfg (ops ++ [OrchOp.create req ts u k er])).runs id = some r) ∧
    (∀ (cfg : OrchConfig) (ops : List OrchOp) (req : CreateRunRequest) (ts : String)
      (u k : Bool) (er : String),
      (runOps cfg (ops ++ [OrchOp.create req ts u k er])).runs.length =
        (runOps cfg ops).runs.length + 1) ∧
    (∀ (cfg : OrchConfig) (ops : List OrchOp),
      ((runOps cfg ops).runs.map (fun p => p.2.id)).Nodup) := by
  refine ⟨?_, ?_, ?_, ?_⟩
  · intro cfg ops ts
    exact dictGet?_eq_none_of_not_mem _ _ (mkRunId_fresh (goodState_runOps cfg ops) ts)
  · intro cfg ops req ts u k er id r h
    rw [runOps_append_single]
    have hs := goodState_runOps cfg ops
    have hne : id ≠ mkRunId (runOps cfg ops).runs.length ts := by
      intro hc
      exact mkRunId_fresh hs ts (hc ▸ dictGet?_mem_keys h)
    rw [show applyOp cfg (runOps cfg ops) (OrchOp.create req ts u k er) =
      (create_run cfg req ts u k er (runOps cfg ops)).2 from rfl]
    rw [create_run_runs_lookup_ne cfg req ts u k er (runOps cfg ops) id hne]
    exact h
  · intro cfg ops req ts u k er
    rw [runOps_append_single]
    have hs := goodState_runOps cfg ops
    rw [show applyOp cfg (runOps cfg ops) (OrchOp.create req ts u k er) =
      (create_run cfg req ts u k er (runOps cfg ops)).2 from rfl]
    rw [create_run_runs_length cfg req ts u k er (runOps cfg ops)]
    rw [dictInsert_of_not_mem _ _ _ (mkRunId_fresh hs ts)]
    simp
  · intro cfg ops
    have hs := goodState_runOps cfg ops
    have hmap : (runOps cfg ops).runs.map (fun p => p.2.id) =
        dictKeys (runOps cfg ops).runs := by
      unfold dictKeys
      exact List.map_congr_left (fun p hp => hs.2.2.2 p hp)
    rw [hmap]
    exact keysIndexed_nodup hs.2.2.1

/-- Witness for C7: after one successful create, the next identity to be
allocated is free; a second create leaves the first run in place unchanged,
grows the registry to two runs, and the stored identities are distinct. -/
theorem c7_witness :
    dictGet? (runOps exCfg [OrchOp.create exReq "T" true true ""]).runs
      (mkRunId (runOps exCfg [OrchOp.create exReq "T" true true ""]).runs.length "T2") =
      none ∧
    dictGet? (runOps exCfg [OrchOp.create exReq "T" true true "",
        OrchOp.create exReq "T2" true true ""]).runs "run-1-T" =
      some { newRun exReq "T" "run-1-T" with status := RunStatus.running } ∧
    (runOps exCfg [OrchOp.create exReq "T" true true "",
        OrchOp.create exReq "T2" true true ""]).runs.length =
      (runOps exCfg [OrchOp.create exReq "T" true true ""]).runs.length + 1 ∧
    ((runOps exCfg [OrchOp.create exReq "T" true true "",
        OrchOp.create exReq "T2" true true ""]).runs.map (fun p => p.2.id)).Nodup :=
  ⟨c7_run_identity_freshness.1 exCfg [OrchOp.create exReq "T" true true ""] "T2",
   c7_run_identity_freshness.2.1 exCfg [OrchOp.create exReq "T" true true ""]
     exReq "T2" true true "" "run-1-T"
     { newRun exReq "T" "run-1-T" with status := RunStatus.running } (by decide),
   c7_run_identity_freshness.2.2.1 exCfg [OrchOp.create exReq "T" true true ""]
     exReq "T2" true true "",
   c7_run_identity_freshness.2.2.2 exCfg [OrchOp.create exReq "T" true true "",
     OrchOp.create exReq "T2" true true ""]⟩
